import Mathlib

/-!
Verification development for the CineMemories photo-gallery repository.

The file gives a shallow embedding of the Media Transcoder, AI Gateway and
Photo/Session Store logic (src/services/geminiService.ts, src/App.tsx,
src/components/Gallery.tsx, src/types.ts) and proves theorems checking the
repository's specification claims against that embedding.

Conventions of the embedding:
* JS byte buffers are `List Nat` with each entry a byte value;
  `DataView.setUint16` / `setUint32` truncate modulo 2^16 / 2^32, which the
  encoders below make explicit.
* JS floating-point arithmetic in the resize / marker geometry is embedded
  over `ℚ` (exact arithmetic); `Math.round` is round-half-up (`⌊x + 1/2⌋`).
* Fallible steps (fetch, bitmap decode) are `Option` parameters; a remote
  model call is a `RemoteResult` parameter (payload or thrown error).
* Each gateway function returns its result paired with the number of remote
  model calls it performed, so "no network call" is the count being zero.
-/

namespace CineMemories

/-! ## Media Transcoder: PCM → WAV wrapping (geminiService.ts, `pcmToWav`) -/

/-- Little-endian bytes of a 16-bit field as written by `DataView.setUint16`
(the stored value is the argument modulo 2^16). -/
def u16le (v : Nat) : List Nat := [v % 256, v / 256 % 256]

/-- Little-endian bytes of a 32-bit field as written by `DataView.setUint32`
(the stored value is the argument modulo 2^32). -/
def u32le (v : Nat) : List Nat :=
  [v % 256, v / 256 % 256, v / 65536 % 256, v / 16777216 % 256]

/-- `pcmToWav` from geminiService.ts: wrap raw PCM bytes in a 44-byte WAV
header.  The ASCII byte lists are the `writeString` calls for `'RIFF'`,
`'WAVE'`, `'fmt '` and `'data'`. -/
def pcmToWav (pcmData : List Nat) (sampleRate : Nat) : List Nat :=
  let numChannels := 1
  let byteRate := sampleRate * numChannels * 2
  let blockAlign := numChannels * 2
  [82, 73, 70, 70] ++ u32le (36 + pcmData.length) ++
  [87, 65, 86, 69] ++ [102, 109, 116, 32] ++
  u32le 16 ++ u16le 1 ++ u16le numChannels ++ u32le sampleRate ++
  u32le byteRate ++ u16le blockAlign ++ u16le 16 ++
  [100, 97, 116, 97] ++ u32le pcmData.length ++ pcmData

/-- Read back a little-endian 16-bit header field. -/
def readU16le (bs : List Nat) (off : Nat) : Nat :=
  bs.getD off 0 + 256 * bs.getD (off + 1) 0

/-- Read back a little-endian 32-bit header field. -/
def readU32le (bs : List Nat) (off : Nat) : Nat :=
  bs.getD off 0 + 256 * bs.getD (off + 1) 0 + 65536 * bs.getD (off + 2) 0 +
    16777216 * bs.getD (off + 3) 0

/-- C1: `pcmToWav` on N PCM bytes yields exactly 44 + N bytes; the header
fields read back as RIFF chunk size 36 + N, audio format 1 (PCM), channel
count 1, the given sample rate, byte rate 2·r, block align 2, bits-per-sample
16 and data chunk size N; and the N PCM bytes are copied unchanged from
offset 44 on.  In particular the sample rate and the data length are
recovered from the container. -/
theorem pcmToWav_spec (pcmData : List Nat) (sampleRate : Nat)
    (hr : 2 * sampleRate < 4294967296)
    (hN : 36 + pcmData.length < 4294967296) :
    (pcmToWav pcmData sampleRate).length = 44 + pcmData.length ∧
    readU32le (pcmToWav pcmData sampleRate) 4 = 36 + pcmData.length ∧
    readU16le (pcmToWav pcmData sampleRate) 20 = 1 ∧
    readU16le (pcmToWav pcmData sampleRate) 22 = 1 ∧
    readU32le (pcmToWav pcmData sampleRate) 24 = sampleRate ∧
    readU32le (pcmToWav pcmData sampleRate) 28 = sampleRate * 2 ∧
    readU16le (pcmToWav pcmData sampleRate) 32 = 2 ∧
    readU16le (pcmToWav pcmData sampleRate) 34 = 16 ∧
    readU32le (pcmToWav pcmData sampleRate) 40 = pcmData.length ∧
    (pcmToWav pcmData sampleRate).drop 44 = pcmData := by
  refine ⟨?_, ?_, ?_, ?_, ?_, ?_, ?_, ?_, ?_, ?_⟩
  · simp [pcmToWav, u16le, u32le]
    omega
  · simp [readU32le, pcmToWav, u16le, u32le]
    omega
  · simp [readU16le, pcmToWav, u16le, u32le]
  · simp [readU16le, pcmToWav, u16le, u32le]
  · simp [readU32le, pcmToWav, u16le, u32le]
    omega
  · simp [readU32le, pcmToWav, u16le, u32le]
    omega
  · simp [readU16le, pcmToWav, u16le, u32le]
  · simp [readU16le, pcmToWav, u16le, u32le]
  · simp [readU32le, pcmToWav, u16le, u32le]
    omega
  · simp [pcmToWav, u16le, u32le]

/-- Witness for C1 at a concrete two-byte payload and the default 24000 Hz
sample rate. -/
theorem pcmToWav_spec_witness :
    2 * 24000 < 4294967296 ∧ 36 + ([7, 8] : List Nat).length < 4294967296 ∧
    readU32le (pcmToWav [7, 8] 24000) 24 = 24000 ∧
    readU32le (pcmToWav [7, 8] 24000) 40 = 2 ∧
    (pcmToWav [7, 8] 24000).drop 44 = [7, 8] :=
  ⟨by norm_num, by norm_num,
    (pcmToWav_spec [7, 8] 24000 (by norm_num) (by norm_num)).2.2.2.2.1,
    (pcmToWav_spec [7, 8] 24000 (by norm_num) (by norm_num)).2.2.2.2.2.2.2.2.1,
    (pcmToWav_spec [7, 8] 24000 (by norm_num) (by norm_num)).2.2.2.2.2.2.2.2.2⟩

/-! ## Media Transcoder: image resize (geminiService.ts,
`fileToGenerativePart` and the identical block in `removeObjectAtPoint`) -/

/-- `Math.round`: round half toward positive infinity. -/
def jsRound (x : ℚ) : ℤ := ⌊x + 1 / 2⌋

/-- Resize rule of `fileToGenerativePart`: when either dimension exceeds
1024, scale both by `1024 / max(width, height)` and round. -/
def fileToGenerativePartDims (width height : ℕ) : ℤ × ℤ :=
  if 1024 < width ∨ 1024 < height then
    let scale : ℚ := 1024 / ((max width height : ℕ) : ℚ)
    (jsRound (width * scale), jsRound (height * scale))
  else ((width : ℤ), (height : ℤ))

/-- The resize block inside `removeObjectAtPoint` (same code, repeated). -/
def removeObjectAtPointDims (width height : ℕ) : ℤ × ℤ :=
  if 1024 < width ∨ 1024 < height then
    let scale : ℚ := 1024 / ((max width height : ℕ) : ℚ)
    (jsRound (width * scale), jsRound (height * scale))
  else ((width : ℤ), (height : ℤ))

/-- Rounding half up moves a rational by at most 1/2. -/
lemma abs_jsRound_sub_le (x : ℚ) : |(jsRound x : ℚ) - x| ≤ 1 / 2 := by
  rw [abs_le]
  constructor
  · have h := Int.lt_floor_add_one (x + 1 / 2)
    simp only [jsRound]
    linarith
  · have h := Int.floor_le (x + 1 / 2)
    simp only [jsRound]
    linarith

/-- Rounding half up of a value at most 1024 stays at most 1024. -/
lemma jsRound_le_1024 {x : ℚ} (hx : x ≤ 1024) : jsRound x ≤ 1024 := by
  have h1 : ⌊x + 1 / 2⌋ < 1025 := by
    rw [Int.floor_lt]
    push_cast
    linarith
  simp only [jsRound]
  omega

/-- C2: if the longer edge exceeds 1024 px, each output dimension of the
resize step is `round(dim * 1024 / max(width, height))`, so the longer output
edge is at most 1024 and each output dimension is within rounding distance
(at most 1/2 px, in particular within 1 px) of the exactly-scaled,
aspect-ratio-preserving value; if both edges are already at most 1024 px the
dimensions are unchanged.  The `removeObjectAtPoint` pipeline applies the
same rule. -/
theorem fileToGenerativePart_resize_spec (width height : ℕ) :
    removeObjectAtPointDims width height = fileToGenerativePartDims width height ∧
    (width ≤ 1024 → height ≤ 1024 →
      fileToGenerativePartDims width height = ((width : ℤ), (height : ℤ))) ∧
    (1024 < max width height →
      (fileToGenerativePartDims width height).1 =
        jsRound ((width : ℚ) * 1024 / ((max width height : ℕ) : ℚ)) ∧
      (fileToGenerativePartDims width height).2 =
        jsRound ((height : ℚ) * 1024 / ((max width height : ℕ) : ℚ)) ∧
      (fileToGenerativePartDims width height).1 ≤ 1024 ∧
      (fileToGenerativePartDims width height).2 ≤ 1024 ∧
      |((fileToGenerativePartDims width height).1 : ℚ) -
        (width : ℚ) * 1024 / ((max width height : ℕ) : ℚ)| ≤ 1 / 2 ∧
      |((fileToGenerativePartDims width height).2 : ℚ) -
        (height : ℚ) * 1024 / ((max width height : ℕ) : ℚ)| ≤ 1 / 2) := by
  refine ⟨rfl, ?_, ?_⟩
  · intro hw hh
    simp only [fileToGenerativePartDims]
    rw [if_neg]
    omega
  · intro hmax
    have hcond : 1024 < width ∨ 1024 < height := by omega
    have hm0 : (0 : ℚ) < ((max width height : ℕ) : ℚ) := by
      have : 0 < max width height := by omega
      exact_mod_cast this
    have hwle : (width : ℚ) ≤ ((max width height : ℕ) : ℚ) := by
      exact_mod_cast Nat.le_max_left width height
    have hhle : (height : ℚ) ≤ ((max width height : ℕ) : ℚ) := by
      exact_mod_cast Nat.le_max_right width height
    have e1 : (fileToGenerativePartDims width height).1 =
        jsRound ((width : ℚ) * (1024 / ((max width height : ℕ) : ℚ))) := by
      simp only [fileToGenerativePartDims, if_pos hcond]
    have e2 : (fileToGenerativePartDims width height).2 =
        jsRound ((height : ℚ) * (1024 / ((max width height : ℕ) : ℚ))) := by
      simp only [fileToGenerativePartDims, if_pos hcond]
    have assoc1 : (width : ℚ) * (1024 / ((max width height : ℕ) : ℚ)) =
        (width : ℚ) * 1024 / ((max width height : ℕ) : ℚ) := by ring
    have assoc2 : (height : ℚ) * (1024 / ((max width height : ℕ) : ℚ)) =
        (height : ℚ) * 1024 / ((max width height : ℕ) : ℚ) := by ring
    have hble1 : (width : ℚ) * 1024 / ((max width height : ℕ) : ℚ) ≤ 1024 := by
      rw [div_le_iff₀ hm0]
      nlinarith
    have hble2 : (height : ℚ) * 1024 / ((max width height : ℕ) : ℚ) ≤ 1024 := by
      rw [div_le_iff₀ hm0]
      nlinarith
    refine ⟨by rw [e1, assoc1], by rw [e2, assoc2], ?_, ?_, ?_, ?_⟩
    · rw [e1, assoc1]
      exact jsRound_le_1024 hble1
    · rw [e2, assoc2]
      exact jsRound_le_1024 hble2
    · rw [e1, assoc1]
      exact abs_jsRound_sub_le _
    · rw [e2, assoc2]
      exact abs_jsRound_sub_le _

/-- Witness for C2: a 2048×1024 image is scaled with longer edge at most
1024, and an 800×600 image is left unchanged. -/
theorem fileToGenerativePart_resize_witness :
    (800 ≤ 1024 ∧ 600 ≤ 1024 ∧
      fileToGenerativePartDims 800 600 = ((800 : ℤ), (600 : ℤ))) ∧
    (1024 < max 2048 1024 ∧
      (fileToGenerativePartDims 2048 1024).1 ≤ 1024 ∧
      (fileToGenerativePartDims 2048 1024).2 ≤ 1024) :=
  ⟨⟨by norm_num, by norm_num,
      (fileToGenerativePart_resize_spec 800 600).2.1 (by norm_num) (by norm_num)⟩,
   ⟨by norm_num,
      ((fileToGenerativePart_resize_spec 2048 1024).2.2 (by norm_num)).2.2.1,
      ((fileToGenerativePart_resize_spec 2048 1024).2.2 (by norm_num)).2.2.2.1⟩⟩

/-! ## Media Transcoder: point-removal marker geometry
(geminiService.ts, `removeObjectAtPoint`, the red-circle mask) -/

/-- Horizontal marker center: `const centerX = x * width`. -/
def markerCenterX (normX width : ℚ) : ℚ := normX * width

/-- Vertical marker center: `const centerY = y * height`. -/
def markerCenterY (normY height : ℚ) : ℚ := normY * height

/-- Marker radius: `Math.max(20, Math.min(width, height) * 0.05)`. -/
def markerRadius (width height : ℚ) : ℚ := max 20 (min width height * (5 / 100))

/-- C3: the point-removal annotation centers its filled circular marker at
the denormalized pixel `(normX · width, normY · height)` with radius
`max(20, 0.05 · min(width, height))`; the radius is always at least 20; no
clamping of `normX`/`normY` to [0, 1] is applied, so out-of-range inputs
place the center outside the canvas; and on a 1000×1000 image with
`normX = normY = 0.5` the center is pixel (500, 500) with radius 50 ≥ 20. -/
theorem removeObjectAtPoint_marker_spec (width height normX normY : ℚ) :
    markerCenterX normX width = normX * width ∧
    markerCenterY normY height = normY * height ∧
    markerRadius width height = max 20 (min width height * (5 / 100)) ∧
    20 ≤ markerRadius width height ∧
    (1 < normX → 0 < width → width < markerCenterX normX width) ∧
    (normX < 0 → 0 < width → markerCenterX normX width < 0) ∧
    markerCenterX (1 / 2) 1000 = 500 ∧
    markerCenterY (1 / 2) 1000 = 500 ∧
    markerRadius 1000 1000 = 50 ∧ (20 : ℚ) ≤ markerRadius 1000 1000 := by
  refine ⟨rfl, rfl, rfl, le_max_left _ _, ?_, ?_, by norm_num [markerCenterX],
    by norm_num [markerCenterY], by norm_num [markerRadius], ?_⟩
  · intro h1 hw
    simp only [markerCenterX]
    nlinarith
  · intro h1 hw
    simp only [markerCenterX]
    nlinarith
  · norm_num [markerRadius]

/-- Witness for C3: with `normX = 2` on a 1000-px-wide image the marker
center lands beyond the right edge, and with `normX = -1` left of zero. -/
theorem removeObjectAtPoint_marker_witness :
    ((1 : ℚ) < 2 ∧ (0 : ℚ) < 1000 ∧ (1000 : ℚ) < markerCenterX 2 1000) ∧
    ((-1 : ℚ) < 0 ∧ markerCenterX (-1) 1000 < 0) :=
  ⟨⟨by norm_num, by norm_num,
      (removeObjectAtPoint_marker_spec 1000 1000 2 0).2.2.2.2.1
        (by norm_num) (by norm_num)⟩,
   ⟨by norm_num,
      (removeObjectAtPoint_marker_spec 1000 1000 (-1) 0).2.2.2.2.2.1
        (by norm_num) (by norm_num)⟩⟩

/-! ## AI Gateway (geminiService.ts)

Each gateway function takes the configured credential (`API_KEY`, the empty
string when none is configured), the outcome of its local transcoding step
(`Option` — `none` when fetch/decode failed), and the outcome of the remote
model call as an oracle parameter.  It returns its domain result paired with
the number of remote model calls performed. -/

/-- An inline-data payload (base64 data plus mime type). -/
structure GenPart where
  data : String
  mimeType : String
deriving DecidableEq

/-- Outcome of a remote `generateContent` call: a returned payload, or a
thrown error (network failure, quota exhaustion, ...). -/
inductive RemoteResult (α : Type) where
  | ok : α → RemoteResult α
  | thrown : RemoteResult α
deriving DecidableEq

/-- JS whitespace test for `String.prototype.trim` (the whitespace characters
relevant here). -/
def isWs (c : Char) : Bool := c = ' ' ∨ c = '\t' ∨ c = '\n' ∨ c = '\r'

/-- Drop leading whitespace characters. -/
def dropLeadingWs : List Char → List Char
  | [] => []
  | c :: cs => if isWs c then dropLeadingWs cs else c :: cs

/-- JS `String.prototype.trim`: strip leading and trailing whitespace. -/
def jsTrim (s : String) : String :=
  ⟨(dropLeadingWs (dropLeadingWs s.data).reverse).reverse⟩

/-- The JS pattern `response.text?.trim() || fallback`: the trimmed text when
present and nonempty, otherwise the fallback. -/
def textOrElse (t : Option String) (fallback : String) : String :=
  match t with
  | some s => if jsTrim s = "" then fallback else jsTrim s
  | none => fallback

/-- `suggestCategory`: categorize an image, falling back to
`"Uncategorized"`. -/
def suggestCategory (apiKey : String) (image : Option GenPart)
    (remote : RemoteResult (Option String)) : String × Nat :=
  if apiKey = "" then ("Uncategorized", 0)
  else
    match image with
    | none => ("Uncategorized", 0)
    | some _ =>
      match remote with
      | .ok t => (textOrElse t "Uncategorized", 1)
      | .thrown => ("Uncategorized", 1)

/-- `generateAutoNarration`: caption an image with a given tone. -/
def generateAutoNarration (apiKey : String) (image : Option GenPart)
    (remote : RemoteResult (Option String)) : String × Nat :=
  if apiKey = "" then ("API Key missing. Please provide a description manually.", 0)
  else
    match image with
    | none => ("Could not process image.", 0)
    | some _ =>
      match remote with
      | .ok t => (textOrElse t "", 1)
      | .thrown => ("Could not generate narration.", 1)

/-- `transcribeAudio`: transcribe recorded audio. -/
def transcribeAudio (apiKey : String) (audio : Option GenPart)
    (remote : RemoteResult (Option String)) : String × Nat :=
  if apiKey = "" then ("API Key missing.", 0)
  else
    match audio with
    | none => ("Could not process audio data.", 0)
    | some _ =>
      match remote with
      | .ok t => (textOrElse t "", 1)
      | .thrown => ("", 1)

/-- Scan of `response.candidates[0].content.parts` for the first part whose
`inlineData.data` is present and nonempty (JS truthiness). -/
def firstInlineData : List (Option String) → Option String
  | [] => none
  | none :: rest => firstInlineData rest
  | some d :: rest => if d = "" then firstInlineData rest else some d

/-- `stylizeImage`: redraw an image in a named style; the response image is
returned as a data URL, `null` on any failure. -/
def stylizeImage (apiKey : String) (image : Option GenPart)
    (remote : RemoteResult (List (Option String))) : Option String × Nat :=
  if apiKey = "" then (none, 0)
  else
    match image with
    | none => (none, 0)
    | some _ =>
      match remote with
      | .ok parts =>
        ((firstInlineData parts).map (fun d => "data:image/png;base64," ++ d), 1)
      | .thrown => (none, 1)

/-- `removeObject`: remove a described object from an image. -/
def removeObject (apiKey : String) (image : Option GenPart)
    (remote : RemoteResult (List (Option String))) : Option String × Nat :=
  if apiKey = "" then (none, 0)
  else
    match image with
    | none => (none, 0)
    | some _ =>
      match remote with
      | .ok parts =>
        ((firstInlineData parts).map (fun d => "data:image/png;base64," ++ d), 1)
      | .thrown => (none, 1)

/-- `removeObjectAtPoint`: remove the object under a clicked point; the
`image` parameter stands for the locally annotated (marked) canvas bytes. -/
def removeObjectAtPoint (apiKey : String) (image : Option GenPart)
    (remote : RemoteResult (List (Option String))) : Option String × Nat :=
  if apiKey = "" then (none, 0)
  else
    match image with
    | none => (none, 0)
    | some _ =>
      match remote with
      | .ok parts =>
        ((firstInlineData parts).map (fun d => "data:image/png;base64," ++ d), 1)
      | .thrown => (none, 1)

/-- `generateSpeech`: synthesize narration speech; the remote payload is the
decoded PCM byte list (`none` when the response carried no inline data or an
empty one — JS truthiness of the base64 string). On success the PCM is
wrapped via `pcmToWav` at the default 24000 Hz. -/
def generateSpeech (apiKey : String)
    (remote : RemoteResult (Option (List Nat))) : Option (List Nat) × Nat :=
  if apiKey = "" then (none, 0)
  else
    match remote with
    | .ok (some bytes) =>
      (if bytes = [] then none else some (pcmToWav bytes 24000), 1)
    | .ok none => (none, 1)
    | .thrown => (none, 1)

/-- `generateAiTrack`: synthesize a music-like track; the category selects a
preset prompt/voice/name. -/
def generateAiTrack (apiKey : String) (category : String)
    (remote : RemoteResult (Option (List Nat))) :
    Option (List Nat × String) × Nat :=
  if apiKey = "" then (none, 0)
  else
    let trackName :=
      if category = "Cinematic" then "Epic Echoes (AI)"
      else if category = "Upbeat" then "Rhythm Burst (AI)"
      else "Gentle Breeze (AI)"
    match remote with
    | .ok (some bytes) =>
      (if bytes = [] then none else some (pcmToWav bytes 24000, trackName), 1)
    | .ok none => (none, 1)
    | .thrown => (none, 1)

/-- C4 (amended): with no configured credential every gateway function makes
zero remote calls and returns its fallback; the fallbacks are
`"Uncategorized"` for categorize, `null` for the image-editing and the two
audio-synthesis operations, and placeholder/error strings for auto-narrate
and transcribe — transcribe returns `"API Key missing."`, not the empty
string. -/
theorem gateway_no_credential (image audio : Option GenPart)
    (rT : RemoteResult (Option String))
    (rI : RemoteResult (List (Option String)))
    (rA : RemoteResult (Option (List Nat))) (category : String) :
    suggestCategory "" image rT = ("Uncategorized", 0) ∧
    generateAutoNarration "" image rT =
      ("API Key missing. Please provide a description manually.", 0) ∧
    transcribeAudio "" audio rT = ("API Key missing.", 0) ∧
    stylizeImage "" image rI = (none, 0) ∧
    removeObject "" image rI = (none, 0) ∧
    removeObjectAtPoint "" image rI = (none, 0) ∧
    generateSpeech "" rA = (none, 0) ∧
    generateAiTrack "" category rA = (none, 0) :=
  ⟨rfl, rfl, rfl, rfl, rfl, rfl, rfl, rfl⟩

/-- Counterexample for C4 as stated: with no credential, `transcribeAudio`
returns the placeholder `"API Key missing."`, which is not the empty string
the claim requires. -/
theorem transcribe_no_credential_counterexample :
    (transcribeAudio "" none RemoteResult.thrown).1 = "API Key missing." ∧
    (transcribeAudio "" none RemoteResult.thrown).1 ≠ "" :=
  ⟨rfl, by decide⟩

/-- The fixed category enumeration of types.ts (`ImageCategory`). -/
def categoryLabels : List String :=
  ["People", "Landscapes", "Animals", "Objects", "Indoor", "Outdoor",
   "Selfies", "Others", "Uncategorized"]

/-- C5 (amended): `suggestCategory` returns `"Uncategorized"` when no
credential is configured, when the image cannot be encoded, when the remote
call throws, or when the response text is missing or blank; on success it
returns the trimmed response text as-is — the closed category list is only
requested in the prompt, never enforced on the returned value. -/
theorem suggestCategory_spec (apiKey : String) (image : Option GenPart)
    (remote : RemoteResult (Option String)) :
    (apiKey = "" → suggestCategory apiKey image remote = ("Uncategorized", 0)) ∧
    (image = none → (suggestCategory apiKey image remote).1 = "Uncategorized") ∧
    (remote = RemoteResult.thrown →
      (suggestCategory apiKey image remote).1 = "Uncategorized") ∧
    (remote = RemoteResult.ok none → apiKey ≠ "" →
      (suggestCategory apiKey image remote).1 = "Uncategorized") ∧
    (∀ s : String, remote = RemoteResult.ok (some s) → jsTrim s = "" →
      (suggestCategory apiKey image remote).1 = "Uncategorized") ∧
    (∀ s : String, remote = RemoteResult.ok (some s) → jsTrim s ≠ "" →
      apiKey ≠ "" → image ≠ none →
      (suggestCategory apiKey image remote).1 = jsTrim s) := by
  refine ⟨?_, ?_, ?_, ?_, ?_, ?_⟩
  · intro h
    simp [suggestCategory, h]
  · intro h
    subst h
    by_cases hk : apiKey = "" <;> simp [suggestCategory, hk]
  · intro h
    subst h
    by_cases hk : apiKey = "" <;> cases image <;> simp [suggestCategory, hk]
  · intro h hk
    subst h
    cases image <;> simp [suggestCategory, textOrElse, hk]
  · intro s h hs
    subst h
    by_cases hk : apiKey = "" <;> cases image <;>
      simp [suggestCategory, textOrElse, hk, hs]
  · intro s h hs hk hi
    subst h
    cases image with
    | none => exact absurd rfl hi
    | some g => simp [suggestCategory, textOrElse, hk, hs]

/-- Witness for C5's amended statement at concrete inputs. -/
theorem suggestCategory_spec_witness :
    suggestCategory "" none RemoteResult.thrown = ("Uncategorized", 0) ∧
    (suggestCategory "k" (some ⟨"d", "image/jpeg"⟩)
      (RemoteResult.ok (some "People"))).1 = jsTrim "People" :=
  ⟨(suggestCategory_spec "" none RemoteResult.thrown).1 rfl,
   (suggestCategory_spec "k" (some ⟨"d", "image/jpeg"⟩)
      (RemoteResult.ok (some "People"))).2.2.2.2.2 "People" rfl
      (by decide) (by decide) (by decide)⟩

/-- Counterexample for C5 as stated: when the remote model answers a string
outside the fixed enumeration (here `"Banana"`), `suggestCategory` returns
it unvalidated, so the successful result is not one of the fixed labels. -/
theorem suggestCategory_counterexample :
    (suggestCategory "k" (some ⟨"d", "image/jpeg"⟩)
      (RemoteResult.ok (some "Banana"))).1 = "Banana" ∧
    "Banana" ∉ categoryLabels := by
  constructor
  · decide
  · decide

/-! ## Photo/Session Store data model (src/types.ts) -/

/-- `ImageFilter`: the six numeric filter channels. -/
structure ImageFilter where
  brightness : ℚ
  contrast : ℚ
  saturation : ℚ
  blur : ℚ
  sepia : ℚ
  grayscale : ℚ
deriving DecidableEq, Inhabited

/-- `DEFAULT_FILTERS` from types.ts. -/
def DEFAULT_FILTERS : ImageFilter :=
  { brightness := 100, contrast := 100, saturation := 100,
    blur := 0, sepia := 0, grayscale := 0 }

/-- `Photo` from types.ts. -/
structure Photo where
  id : String
  url : String
  originalUrl : String
  name : String
  category : String
  narration : String
  audioNarrationUrl : Option String
  filters : ImageFilter
  rotation : Nat
deriving DecidableEq, Inhabited

/-! ## Batch categorization queue (src/App.tsx, `processCategoriesQueue`) -/

/-- Per-photo oracle for one pass of the queue: the image-encoding outcome
and the remote-call outcome feeding that photo's `suggestCategory` call. -/
structure PhotoEnv where
  image : Option GenPart
  remote : RemoteResult (Option String)

/-- Observable events of the categorization queue. -/
inductive QEvent where
  | request : Nat → QEvent
  | resolve : Nat → String → QEvent
  | delay : QEvent
deriving DecidableEq

/-- Trace of `processCategoriesQueue`: the `for` loop awaits
`suggestCategory` for one photo (request, then resolution — the gateway is
total, so every call resolves, to the fallback on failure), then awaits the
fixed 1-second delay, then moves to the next photo. -/
def processCategoriesQueue (apiKey : String) : Nat → List PhotoEnv → List QEvent
  | _, [] => []
  | i, e :: rest =>
    QEvent.request i ::
    QEvent.resolve i (suggestCategory apiKey e.image e.remote).1 ::
    QEvent.delay ::
    processCategoriesQueue apiKey (i + 1) rest

lemma processCategoriesQueue_length (apiKey : String) (start : Nat)
    (envs : List PhotoEnv) :
    (processCategoriesQueue apiKey start envs).length = 3 * envs.length := by
  induction envs generalizing start with
  | nil => rfl
  | cons e rest ih =>
    simp only [processCategoriesQueue, List.length_cons, ih (start + 1)]
    omega

lemma processCategoriesQueue_get (apiKey : String) (start : Nat)
    (envs : List PhotoEnv) (j : Nat) (hj : j < envs.length) :
    (processCategoriesQueue apiKey start envs).get? (3 * j) =
      some (QEvent.request (start + j)) ∧
    (processCategoriesQueue apiKey start envs).get? (3 * j + 1) =
      some (QEvent.resolve (start + j)
        (suggestCategory apiKey (envs.get ⟨j, hj⟩).image
          (envs.get ⟨j, hj⟩).remote).1) ∧
    (processCategoriesQueue apiKey start envs).get? (3 * j + 2) =
      some QEvent.delay := by
  induction envs generalizing start j with
  | nil => simp at hj
  | cons e rest ih =>
    cases j with
    | zero => simp [processCategoriesQueue]
    | succ n =>
      have hn : n < rest.length := by simpa using hj
      have h0 : 3 * (n + 1) = 3 * n + 1 + 1 + 1 := by ring
      have h1 : 3 * (n + 1) + 1 = 3 * n + 1 + 1 + 1 + 1 := by ring
      have h2 : 3 * (n + 1) + 2 = 3 * n + 2 + 1 + 1 + 1 := by ring
      have harith : start + 1 + n = start + (n + 1) := by ring
      refine ⟨?_, ?_, ?_⟩
      · rw [h0]
        simp only [processCategoriesQueue, List.get?_cons_succ]
        have := (ih (start + 1) n hn).1
        rw [harith] at this
        simpa using this
      · rw [h1]
        simp only [processCategoriesQueue, List.get?_cons_succ]
        have := (ih (start + 1) n hn).2.1
        rw [harith] at this
        simpa using this
      · rw [h2]
        simp only [processCategoriesQueue, List.get?_cons_succ]
        exact (ih (start + 1) n hn).2.2

/-- C6: for every batch, the categorization queue processes photos strictly
sequentially: the trace is exactly three events per photo — photo j's
request at position 3j, its resolution (the gateway is total, so the call
resolves even on failure, to `"Uncategorized"`) at position 3j + 1, and the
fixed delay at position 3j + 2 — so each request resolves and the delay
elapses before the next request at position 3(j+1), and every photo of the
batch is processed regardless of failures on earlier photos. -/
theorem processCategoriesQueue_sequential (apiKey : String)
    (envs : List PhotoEnv) :
    (processCategoriesQueue apiKey 0 envs).length = 3 * envs.length ∧
    ∀ j, (hj : j < envs.length) →
      (processCategoriesQueue apiKey 0 envs).get? (3 * j) =
        some (QEvent.request j) ∧
      (processCategoriesQueue apiKey 0 envs).get? (3 * j + 1) =
        some (QEvent.resolve j
          (suggestCategory apiKey (envs.get ⟨j, hj⟩).image
            (envs.get ⟨j, hj⟩).remote).1) ∧
      (processCategoriesQueue apiKey 0 envs).get? (3 * j + 2) =
        some QEvent.delay := by
  refine ⟨processCategoriesQueue_length apiKey 0 envs, ?_⟩
  intro j hj
  have h := processCategoriesQueue_get apiKey 0 envs j hj
  simpa using h

/-- Witness for C6: a batch of three where photo 1 (0-based) fails —
photo 2 is still requested and resolved, after a delay event. -/
theorem processCategoriesQueue_sequential_witness :
    (2 < ([⟨some ⟨"a", "image/jpeg"⟩, RemoteResult.ok (some "People")⟩,
           ⟨some ⟨"b", "image/jpeg"⟩, RemoteResult.thrown⟩,
           ⟨some ⟨"c", "image/jpeg"⟩, RemoteResult.ok (some "Landscapes")⟩] :
            List PhotoEnv).length) ∧
    (processCategoriesQueue "k" 0
        [⟨some ⟨"a", "image/jpeg"⟩, RemoteResult.ok (some "People")⟩,
         ⟨some ⟨"b", "image/jpeg"⟩, RemoteResult.thrown⟩,
         ⟨some ⟨"c", "image/jpeg"⟩, RemoteResult.ok (some "Landscapes")⟩]).get?
      (3 * 2) = some (QEvent.request 2) :=
  ⟨by norm_num,
   ((processCategoriesQueue_sequential "k"
      [⟨some ⟨"a", "image/jpeg"⟩, RemoteResult.ok (some "People")⟩,
       ⟨some ⟨"b", "image/jpeg"⟩, RemoteResult.thrown⟩,
       ⟨some ⟨"c", "image/jpeg"⟩, RemoteResult.ok (some "Landscapes")⟩]).2
      2 (by norm_num)).1⟩

/-! ## Store mutations (src/App.tsx) -/

/-- The store's update-by-id pattern
(`photos.map(p => p.id === id ? changed(p) : p)`), used when a gateway call
resolves (categorization) and by `saveEditedPhoto`. -/
def updatePhotoById (photos : List Photo) (id : String)
    (change : Photo → Photo) : List Photo :=
  photos.map fun p => if p.id = id then change p else p

/-- `deletePhoto`: `photos.filter(p => p.id !== id)`. -/
def deletePhoto (photos : List Photo) (id : String) : List Photo :=
  photos.filter fun p => p.id ≠ id

lemma updatePhotoById_of_not_mem :
    ∀ (photos : List Photo) (id : String) (change : Photo → Photo),
      (∀ p ∈ photos, p.id ≠ id) → updatePhotoById photos id change = photos
  | [], _, _, _ => rfl
  | p :: rest, id, change, h => by
    have hp : p.id ≠ id := h p (List.mem_cons_self p rest)
    have hrest := updatePhotoById_of_not_mem rest id change
      (fun q hq => h q (List.mem_cons_of_mem p hq))
    simp only [updatePhotoById, List.map_cons, if_neg hp]
    simp only [updatePhotoById] at hrest
    rw [hrest]

/-- C7: updating a photo id that is not present in the store (e.g. the photo
was deleted while the AI call was in flight) changes nothing — a silent
no-op (the operation is total, so no error is raised); in particular an
update issued for a photo after it is deleted leaves the remaining photos
unchanged. -/
theorem updatePhotoById_missing_id (photos : List Photo) (id : String)
    (change : Photo → Photo) (h : ∀ p ∈ photos, p.id ≠ id) :
    updatePhotoById photos id change = photos ∧
    updatePhotoById (deletePhoto photos id) id change = deletePhoto photos id := by
  refine ⟨updatePhotoById_of_not_mem photos id change h, ?_⟩
  refine updatePhotoById_of_not_mem _ id change ?_
  intro p hp
  simp only [deletePhoto, List.mem_filter] at hp
  simpa using hp.2

/-- Witness for C7 at a concrete store and a missing id. -/
theorem updatePhotoById_missing_id_witness :
    (∀ p ∈ [({ id := "a1", url := "u", originalUrl := "u", name := "n",
               category := "People", narration := "", audioNarrationUrl := none,
               filters := DEFAULT_FILTERS, rotation := 0 } : Photo)],
        p.id ≠ "zz") ∧
    updatePhotoById
        [{ id := "a1", url := "u", originalUrl := "u", name := "n",
           category := "People", narration := "", audioNarrationUrl := none,
           filters := DEFAULT_FILTERS, rotation := 0 }] "zz"
        (fun p => { p with category := "Animals" }) =
      [{ id := "a1", url := "u", originalUrl := "u", name := "n",
         category := "People", narration := "", audioNarrationUrl := none,
         filters := DEFAULT_FILTERS, rotation := 0 }] :=
  ⟨by decide,
   (updatePhotoById_missing_id _ "zz" (fun p => { p with category := "Animals" })
      (by decide)).1⟩

/-- `handleDeleteCustomCategory`: remove the label from the custom list and
reassign every photo carrying it to `"Uncategorized"`. -/
def handleDeleteCustomCategory (customCategories : List String)
    (photos : List Photo) (category : String) : List String × List Photo :=
  (customCategories.filter fun c => c ≠ category,
   photos.map fun p =>
     if p.category = category then { p with category := "Uncategorized" } else p)

lemma getD_map_of_lt {α β : Type} [Inhabited β] (f : α → β) (l : List α)
    (i : Nat) (hi : i < l.length) :
    (l.map f).getD i default = f (l.get ⟨i, hi⟩) := by
  induction l generalizing i with
  | nil => simp at hi
  | cons a t ih =>
    cases i with
    | zero => rfl
    | succ n =>
      have hn : n < t.length := by simpa using hi
      simpa using ih n hn

/-- C8: deleting a custom category label removes it from the custom list
(other labels stay), keeps the photo count, reassigns exactly the photos
whose category equals the deleted label to `"Uncategorized"` (touching no
other field), and leaves every other photo entirely unchanged. -/
theorem handleDeleteCustomCategory_spec (cats : List String)
    (photos : List Photo) (c : String) :
    c ∉ (handleDeleteCustomCategory cats photos c).1 ∧
    (∀ c' ∈ cats, c' ≠ c → c' ∈ (handleDeleteCustomCategory cats photos c).1) ∧
    (handleDeleteCustomCategory cats photos c).2.length = photos.length ∧
    ∀ i, (hi : i < photos.length) →
      (handleDeleteCustomCategory cats photos c).2.getD i default =
        (if (photos.get ⟨i, hi⟩).category = c
         then { photos.get ⟨i, hi⟩ with category := "Uncategorized" }
         else photos.get ⟨i, hi⟩) := by
  refine ⟨?_, ?_, ?_, ?_⟩
  · intro hc
    simp [handleDeleteCustomCategory, List.mem_filter] at hc
  · intro c' hc' hne
    simp only [handleDeleteCustomCategory, List.mem_filter]
    exact ⟨hc', by simpa using hne⟩
  · simp [handleDeleteCustomCategory]
  · intro i hi
    have e : (handleDeleteCustomCategory cats photos c).2 =
        photos.map (fun p =>
          if p.category = c then { p with category := "Uncategorized" } else p) := rfl
    rw [e]
    exact getD_map_of_lt _ photos i hi

/-- Witness for C8: deleting `"Trips"` reassigns the one photo labeled
`"Trips"` and keeps the `"Sunsets"` label. -/
theorem handleDeleteCustomCategory_spec_witness :
    ("Sunsets" ∈ ["Trips", "Sunsets"] ∧ "Sunsets" ≠ "Trips" ∧
      "Sunsets" ∈ (handleDeleteCustomCategory ["Trips", "Sunsets"]
        [{ id := "a1", url := "u", originalUrl := "u", name := "n",
           category := "Trips", narration := "", audioNarrationUrl := none,
           filters := DEFAULT_FILTERS, rotation := 0 }] "Trips").1) ∧
    (0 < ([{ id := "a1", url := "u", originalUrl := "u", name := "n",
             category := "Trips", narration := "", audioNarrationUrl := none,
             filters := DEFAULT_FILTERS, rotation := 0 }] : List Photo).length ∧
      (handleDeleteCustomCategory ["Trips", "Sunsets"]
        [{ id := "a1", url := "u", originalUrl := "u", name := "n",
           category := "Trips", narration := "", audioNarrationUrl := none,
           filters := DEFAULT_FILTERS, rotation := 0 }] "Trips").2.getD 0 default =
        (if (([{ id := "a1", url := "u", originalUrl := "u", name := "n",
                 category := "Trips", narration := "", audioNarrationUrl := none,
                 filters := DEFAULT_FILTERS, rotation := 0 }] : List Photo).get
              ⟨0, by norm_num⟩).category = "Trips"
         then { ([{ id := "a1", url := "u", originalUrl := "u", name := "n",
                    category := "Trips", narration := "", audioNarrationUrl := none,
                    filters := DEFAULT_FILTERS, rotation := 0 }] : List Photo).get
                  ⟨0, by norm_num⟩ with category := "Uncategorized" }
         else ([{ id := "a1", url := "u", originalUrl := "u", name := "n",
                  category := "Trips", narration := "", audioNarrationUrl := none,
                  filters := DEFAULT_FILTERS, rotation := 0 }] : List Photo).get
                ⟨0, by norm_num⟩)) :=
  ⟨⟨by decide, by decide,
     (handleDeleteCustomCategory_spec ["Trips", "Sunsets"] _ "Trips").2.1
       "Sunsets" (by decide) (by decide)⟩,
   ⟨by norm_num,
     (handleDeleteCustomCategory_spec ["Trips", "Sunsets"] _ "Trips").2.2.2
       0 (by norm_num)⟩⟩

/-! ## Reordering (src/App.tsx, `handleReorder`) -/

/-- JS `Array.prototype.findIndex`, with `-1` embedded as `none`. -/
def findIdxO {α : Type} (pred : α → Bool) : List α → Option Nat
  | [] => none
  | a :: rest => if pred a then some 0 else (findIdxO pred rest).map (· + 1)

/-- JS `splice(i, 0, x)` on a nonnegative index: insert at position `i`,
clamped to the end of the list. -/
def spliceInsert {α : Type} : List α → Nat → α → List α
  | l, 0, x => x :: l
  | [], _ + 1, x => [x]
  | a :: t, n + 1, x => a :: spliceInsert t n x

/-- `handleReorder` from App.tsx: look up both ids; no-op when either is
missing or both indices coincide; otherwise remove the moved photo and
re-insert it at the target id's recomputed index (JS `splice` with index
`-1`, reachable only if the target id vanished, inserts before the last
element — kept for fidelity, though unreachable). -/
def handleReorder (photos : List Photo) (fromId toId : String) : List Photo :=
  match findIdxO (fun p => p.id = fromId) photos,
        findIdxO (fun p => p.id = toId) photos with
  | some fromIndex, some toIndex =>
    if fromIndex = toIndex then photos
    else
      match photos.get? fromIndex with
      | none => photos
      | some movedItem =>
        let rest := photos.eraseIdx fromIndex
        match findIdxO (fun p => p.id = toId) rest with
        | some newToIndex => spliceInsert rest newToIndex movedItem
        | none => spliceInsert rest (rest.length - 1) movedItem
  | _, _ => photos

lemma findIdxO_eq_none {α : Type} (pred : α → Bool) :
    ∀ (l : List α), (∀ a ∈ l, pred a = false) → findIdxO pred l = none
  | [], _ => rfl
  | a :: rest, h => by
    have ha := h a (List.mem_cons_self a rest)
    have hrest := findIdxO_eq_none pred rest
      (fun b hb => h b (List.mem_cons_of_mem a hb))
    simp [findIdxO, ha, hrest]

lemma spliceInsert_perm {α : Type} :
    ∀ (l : List α) (i : Nat) (x : α), (spliceInsert l i x).Perm (x :: l)
  | l, 0, x => by simp [spliceInsert]
  | [], _ + 1, x => by simp [spliceInsert]
  | a :: t, n + 1, x => by
    simp only [spliceInsert]
    exact ((spliceInsert_perm t n x).cons a).trans (List.Perm.swap x a t)

lemma get?_cons_eraseIdx_perm {α : Type} :
    ∀ (l : List α) (i : Nat) (x : α), l.get? i = some x →
      (x :: l.eraseIdx i).Perm l
  | [], i, x, h => by simp at h
  | a :: t, 0, x, h => by
    simp only [List.get?] at h
    injection h with h
    subst h
    simp [List.eraseIdx]
  | a :: t, n + 1, x, h => by
    simp only [List.get?] at h
    have ih := get?_cons_eraseIdx_perm t n x h
    simp only [List.eraseIdx]
    exact (List.Perm.swap a x (t.eraseIdx n)).trans (ih.cons a)

/-- Whatever the inputs, `handleReorder` permutes the photo list. -/
lemma handleReorder_perm (photos : List Photo) (fromId toId : String) :
    (handleReorder photos fromId toId).Perm photos := by
  unfold handleReorder
  cases hf : findIdxO (fun p => p.id = fromId) photos with
  | none => exact List.Perm.refl photos
  | some fromIndex =>
    cases ht : findIdxO (fun p => p.id = toId) photos with
    | none => exact List.Perm.refl photos
    | some toIndex =>
      by_cases heq : fromIndex = toIndex
      · simp [heq]
      · simp only [if_neg heq]
        cases hg : photos.get? fromIndex with
        | none => exact List.Perm.refl photos
        | some movedItem =>
          have hback := get?_cons_eraseIdx_perm photos fromIndex movedItem hg
          cases hn : findIdxO (fun p => p.id = toId) (photos.eraseIdx fromIndex) with
          | none =>
            exact (spliceInsert_perm _ _ _).trans hback
          | some newToIndex =>
            exact (spliceInsert_perm _ _ _).trans hback

/-- C10: `handleReorder` always returns a permutation of the photo sequence
(the records themselves are untouched, the multiset of photos is preserved),
and it returns the list unchanged when the two ids coincide or when either
id is absent from the store. -/
theorem handleReorder_spec (photos : List Photo) (fromId toId : String) :
    (handleReorder photos fromId toId).Perm photos ∧
    (fromId = toId → handleReorder photos fromId toId = photos) ∧
    ((∀ p ∈ photos, p.id ≠ fromId) → handleReorder photos fromId toId = photos) ∧
    ((∀ p ∈ photos, p.id ≠ toId) → handleReorder photos fromId toId = photos) := by
  refine ⟨handleReorder_perm photos fromId toId, ?_, ?_, ?_⟩
  · intro h
    subst h
    unfold handleReorder
    cases hf : findIdxO (fun p => p.id = fromId) photos with
    | none => rfl
    | some i => simp
  · intro h
    have hnone : findIdxO (fun p => p.id = fromId) photos = none :=
      findIdxO_eq_none _ photos (fun a ha => by simpa using h a ha)
    unfold handleReorder
    rw [hnone]
  · intro h
    have hnone : findIdxO (fun p => p.id = toId) photos = none :=
      findIdxO_eq_none _ photos (fun a ha => by simpa using h a ha)
    unfold handleReorder
    rw [hnone]
    cases findIdxO (fun p => p.id = fromId) photos <;> rfl

/-- Witness for C10 on a concrete two-photo store. -/
theorem handleReorder_spec_witness :
    (handleReorder
        [{ id := "a1", url := "u1", originalUrl := "u1", name := "n1",
           category := "People", narration := "", audioNarrationUrl := none,
           filters := DEFAULT_FILTERS, rotation := 0 },
         { id := "b2", url := "u2", originalUrl := "u2", name := "n2",
           category := "Animals", narration := "", audioNarrationUrl := none,
           filters := DEFAULT_FILTERS, rotation := 0 }] "a1" "a1" =
      [{ id := "a1", url := "u1", originalUrl := "u1", name := "n1",
         category := "People", narration := "", audioNarrationUrl := none,
         filters := DEFAULT_FILTERS, rotation := 0 },
       { id := "b2", url := "u2", originalUrl := "u2", name := "n2",
         category := "Animals", narration := "", audioNarrationUrl := none,
         filters := DEFAULT_FILTERS, rotation := 0 }]) ∧
    ((∀ p ∈ [({ id := "a1", url := "u1", originalUrl := "u1", name := "n1",
                category := "People", narration := "", audioNarrationUrl := none,
                filters := DEFAULT_FILTERS, rotation := 0 } : Photo)],
        p.id ≠ "zz") ∧
      handleReorder
        [{ id := "a1", url := "u1", originalUrl := "u1", name := "n1",
           category := "People", narration := "", audioNarrationUrl := none,
           filters := DEFAULT_FILTERS, rotation := 0 }] "zz" "a1" =
      [{ id := "a1", url := "u1", originalUrl := "u1", name := "n1",
         category := "People", narration := "", audioNarrationUrl := none,
         filters := DEFAULT_FILTERS, rotation := 0 }]) :=
  ⟨(handleReorder_spec _ "a1" "a1").2.1 rfl,
   ⟨by decide, (handleReorder_spec _ "zz" "a1").2.2.1 (by decide)⟩⟩

/-! ## Editor session and store operations (src/components/Gallery.tsx
ImageEditor, src/App.tsx) -/

/-- One `setEditedPhoto` call site of the ImageEditor.  Each constructor is
one update pattern of the source; all spread the previous record and change
only the indicated fields. -/
inductive EditorOp where
  | setFilters (filters : ImageFilter)
  | rotate
  | reset
  | setNarration (text : String)
  | appendTranscription (text : String)
  | speechSuccess (audioUrl : String)
  | recordingSaved (audioUrl : String)
  | stylizeSuccess (newUrl : String)
  | removeObjectSuccess (newUrl : String)
  | removeAtPointSuccess (newUrl : String)

/-- Apply one editor update to the edited photo.  `base` is the photo the
editor was opened on (`handleReset` restores from it); `setFilters` covers
`updateFilter` and `handleAutoEnhance`, which replace only the `filters`
field; `appendTranscription` is `handleTranscribe`'s narration append. -/
def applyEditorOp (base : Photo) (p : Photo) : EditorOp → Photo
  | .setFilters fs => { p with filters := fs }
  | .rotate => { p with rotation := (p.rotation + 90) % 360 }
  | .reset => { base with filters := DEFAULT_FILTERS, rotation := 0 }
  | .setNarration t => { p with narration := t }
  | .appendTranscription t =>
      { p with narration :=
          if p.narration = "" then t else p.narration ++ "\n" ++ t }
  | .speechSuccess u => { p with audioNarrationUrl := some u }
  | .recordingSaved u => { p with audioNarrationUrl := some u }
  | .stylizeSuccess u => { p with url := u }
  | .removeObjectSuccess u => { p with url := u }
  | .removeAtPointSuccess u => { p with url := u }

/-- An editor session: `editedPhoto` starts as a copy of the opened photo
and the update sites are applied in order; `onSave` hands the result back. -/
def runEditor (base : Photo) (ops : List EditorOp) : Photo :=
  ops.foldl (applyEditorOp base) base

lemma applyEditorOp_originalUrl (base p : Photo) (op : EditorOp)
    (h : p.originalUrl = base.originalUrl) :
    (applyEditorOp base p op).originalUrl = base.originalUrl := by
  cases op <;> simp [applyEditorOp, h]

lemma applyEditorOp_id (base p : Photo) (op : EditorOp) (h : p.id = base.id) :
    (applyEditorOp base p op).id = base.id := by
  cases op <;> simp [applyEditorOp, h]

lemma foldl_applyEditorOp_inv (base : Photo) :
    ∀ (ops : List EditorOp) (p : Photo),
      p.originalUrl = base.originalUrl → p.id = base.id →
      (ops.foldl (applyEditorOp base) p).originalUrl = base.originalUrl ∧
      (ops.foldl (applyEditorOp base) p).id = base.id
  | [], _, h1, h2 => ⟨h1, h2⟩
  | op :: rest, p, h1, h2 =>
    foldl_applyEditorOp_inv base rest (applyEditorOp base p op)
      (applyEditorOp_originalUrl base p op h1) (applyEditorOp_id base p op h2)

lemma runEditor_originalUrl (base : Photo) (ops : List EditorOp) :
    (runEditor base ops).originalUrl = base.originalUrl :=
  (foldl_applyEditorOp_inv base ops base rfl rfl).1

lemma runEditor_id (base : Photo) (ops : List EditorOp) :
    (runEditor base ops).id = base.id :=
  (foldl_applyEditorOp_inv base ops base rfl rfl).2

/-- A store-level mutation of the photo list, as wired in App.tsx. -/
inductive StoreOp where
  | saveEdited (id : String) (ops : List EditorOp)
  | updateCategory (id : String) (cat : String)
  | reorder (fromId toId : String)
  | deleteById (id : String)
  | deleteCategory (cat : String)

/-- Apply one store mutation.  `saveEdited` models opening the editor on the
photo with the given id (`state.photos.find(...)`), running the session, and
`saveEditedPhoto` replacing the photo whose id matches the saved record. -/
def applyStoreOp (photos : List Photo) : StoreOp → List Photo
  | .saveEdited id ops =>
    match photos.find? (fun p => p.id = id) with
    | none => photos
    | some base =>
      updatePhotoById photos (runEditor base ops).id (fun _ => runEditor base ops)
  | .updateCategory id cat =>
    updatePhotoById photos id (fun p => { p with category := cat })
  | .reorder fromId toId => handleReorder photos fromId toId
  | .deleteById id => deletePhoto photos id
  | .deleteCategory cat => (handleDeleteCustomCategory [] photos cat).2

lemma mem_map_preserving {f : Photo → Photo}
    (hf : ∀ p, (f p).id = p.id ∧ (f p).originalUrl = p.originalUrl)
    {photos : List Photo} {p' : Photo} (h : p' ∈ photos.map f) :
    ∃ p ∈ photos, p'.id = p.id ∧ p'.originalUrl = p.originalUrl := by
  obtain ⟨q, hq, hEq⟩ := List.mem_map.1 h
  exact ⟨q, hq, by rw [← hEq]; exact (hf q).1, by rw [← hEq]; exact (hf q).2⟩

lemma applyStoreOp_trace (photos : List Photo) (op : StoreOp) (p' : Photo)
    (h : p' ∈ applyStoreOp photos op) :
    ∃ p ∈ photos, p'.id = p.id ∧ p'.originalUrl = p.originalUrl := by
  cases op with
  | saveEdited id ops =>
    simp only [applyStoreOp] at h
    cases hfind : photos.find? (fun p => p.id = id) with
    | none =>
      rw [hfind] at h
      exact ⟨p', h, rfl, rfl⟩
    | some base =>
      rw [hfind] at h
      simp only [updatePhotoById, List.mem_map] at h
      obtain ⟨q, hq, hEq⟩ := h
      by_cases hid : q.id = (runEditor base ops).id
      · rw [if_pos hid] at hEq
        have hbase : base ∈ photos := List.mem_of_find?_eq_some hfind
        refine ⟨base, hbase, ?_, ?_⟩
        · rw [← hEq]; exact runEditor_id base ops
        · rw [← hEq]; exact runEditor_originalUrl base ops
      · rw [if_neg hid] at hEq
        exact ⟨q, hq, by rw [← hEq], by rw [← hEq]⟩
  | updateCategory id cat =>
    simp only [applyStoreOp, updatePhotoById] at h
    refine mem_map_preserving ?_ h
    intro p
    by_cases hp : p.id = id <;> simp [hp]
  | reorder fromId toId =>
    simp only [applyStoreOp] at h
    exact ⟨p', (handleReorder_perm photos fromId toId).mem_iff.mp h, rfl, rfl⟩
  | deleteById id =>
    simp only [applyStoreOp, deletePhoto] at h
    exact ⟨p', List.mem_of_mem_filter h, rfl, rfl⟩
  | deleteCategory cat =>
    simp only [applyStoreOp, handleDeleteCustomCategory] at h
    refine mem_map_preserving ?_ h
    intro p
    by_cases hp : p.category = cat <;> simp [hp]

lemma foldl_applyStoreOp_trace :
    ∀ (ops : List StoreOp) (photos : List Photo) (p' : Photo),
      p' ∈ ops.foldl applyStoreOp photos →
      ∃ p ∈ photos, p'.id = p.id ∧ p'.originalUrl = p.originalUrl
  | [], _, p', h => ⟨p', h, rfl, rfl⟩
  | op :: rest, photos, p', h => by
    obtain ⟨q, hq, h1, h2⟩ :=
      foldl_applyStoreOp_trace rest (applyStoreOp photos op) p' h
    obtain ⟨r, hr, h3, h4⟩ := applyStoreOp_trace photos op q hq
    exact ⟨r, hr, h1.trans h3, h2.trans h4⟩

/-- C9: after any sequence of store operations (editor saves, category
reassignments, reorders, deletes, custom-category deletions) every photo
still in the store carries the `originalUrl` (and id) it had at creation;
an editor session never changes `originalUrl`; and a successful stylize,
remove-object or remove-at-point result changes only the `url` field of the
edited photo. -/
theorem originalUrl_immutable (photos : List Photo) (ops : List StoreOp) :
    (∀ p' ∈ ops.foldl applyStoreOp photos,
      ∃ p ∈ photos, p'.id = p.id ∧ p'.originalUrl = p.originalUrl) ∧
    (∀ (base : Photo) (eops : List EditorOp),
      (runEditor base eops).originalUrl = base.originalUrl) ∧
    (∀ (base p : Photo) (u : String),
      applyEditorOp base p (EditorOp.stylizeSuccess u) = { p with url := u } ∧
      applyEditorOp base p (EditorOp.removeObjectSuccess u) = { p with url := u } ∧
      applyEditorOp base p (EditorOp.removeAtPointSuccess u) = { p with url := u }) :=
  ⟨fun p' h => foldl_applyStoreOp_trace ops photos p' h,
   fun base eops => runEditor_originalUrl base eops,
   fun _ _ _ => ⟨rfl, rfl, rfl⟩⟩

/-- Witness for C9: a stylize-save session on a one-photo store keeps the
photo's original url. -/
theorem originalUrl_immutable_witness :
    ({ id := "a1", url := "s", originalUrl := "u", name := "n",
       category := "People", narration := "", audioNarrationUrl := none,
       filters := DEFAULT_FILTERS, rotation := 0 } : Photo) ∈
      ([StoreOp.saveEdited "a1" [EditorOp.stylizeSuccess "s"]].foldl applyStoreOp
        [{ id := "a1", url := "u", originalUrl := "u", name := "n",
           category := "People", narration := "", audioNarrationUrl := none,
           filters := DEFAULT_FILTERS, rotation := 0 }]) ∧
    (∃ p ∈ ([{ id := "a1", url := "u", originalUrl := "u", name := "n",
               category := "People", narration := "", audioNarrationUrl := none,
               filters := DEFAULT_FILTERS, rotation := 0 }] : List Photo),
      ({ id := "a1", url := "s", originalUrl := "u", name := "n",
         category := "People", narration := "", audioNarrationUrl := none,
         filters := DEFAULT_FILTERS, rotation := 0 } : Photo).id = p.id ∧
      ({ id := "a1", url := "s", originalUrl := "u", name := "n",
         category := "People", narration := "", audioNarrationUrl := none,
         filters := DEFAULT_FILTERS, rotation := 0 } : Photo).originalUrl =
        p.originalUrl) :=
  ⟨by decide,
   (originalUrl_immutable
      [{ id := "a1", url := "u", originalUrl := "u", name := "n",
         category := "People", narration := "", audioNarrationUrl := none,
         filters := DEFAULT_FILTERS, rotation := 0 }]
      [StoreOp.saveEdited "a1" [EditorOp.stylizeSuccess "s"]]).1
      { id := "a1", url := "s", originalUrl := "u", name := "n",
        category := "People", narration := "", audioNarrationUrl := none,
        filters := DEFAULT_FILTERS, rotation := 0 }
      (by decide)⟩

end CineMemories
